import Mathlib

/-!
Shallow embedding of the task/kanban web application: the Express server
(`server.js`: password hashing, session management, auth guards, task CRUD)
and the browser client (`AppCore`: drag-and-drop status sync, status-summary
widget).  JavaScript strings are modelled as Lean `String` / `List Char`,
machine numbers as `Nat`/`Int`/`Rat`, thrown exceptions as `Except`, and
absent JSON fields as `Option`.  External library functions (Node's
`crypto.scryptSync`, `Date` parsing) are parameters of the definitions that
use them, constrained only by what the Node API guarantees (e.g. output
length of scrypt).
-/

/-- Decidable equality for `Except`, used to evaluate handler outcomes on
concrete inputs. -/
instance {ε α : Type} [DecidableEq ε] [DecidableEq α] : DecidableEq (Except ε α)
  | .error e, .error f =>
    if h : e = f then .isTrue (by rw [h])
    else .isFalse (by intro hc; cases hc; exact h rfl)
  | .error _, .ok _ => .isFalse (by intro hc; cases hc)
  | .ok _, .error _ => .isFalse (by intro hc; cases hc)
  | .ok a, .ok b =>
    if h : a = b then .isTrue (by rw [h])
    else .isFalse (by intro hc; cases hc; exact h rfl)

/-! ## Sessions and requests (server.js lines 69-93, 234-241, 31-48) -/

/-- A session document as stored in the `sessions` collection
(`createSession`, server.js:69-75).  `expiresAt` is a millisecond timestamp;
the JavaScript guard `s.expiresAt && ...` treats a missing/zero `expiresAt`
as falsy, which we model by `expiresAt = 0`. -/
structure SessionRec where
  token : String
  userId : Nat
  createdAt : Nat
  expiresAt : Nat
deriving DecidableEq, Repr

/-- An incoming HTTP request's credential-bearing headers. -/
structure Request where
  authorization : Option String
  cookie : Option String
deriving DecidableEq, Repr

/-- Outcome of a page-level guard: forward the request (the page is served)
or redirect to `/login.html`. -/
inductive Decision where
  | proceed
  | redirectLogin
deriving DecidableEq, Repr

/-- The characters of the literal prefix `"Bearer "` checked by
`h.startsWith('Bearer ')` in server.js:37, 85, 236. -/
def bearerMarker : List Char := ['B', 'e', 'a', 'r', 'e', 'r', ' ']

/-- Models `h.startsWith('Bearer ') ? h.slice(7) : ''` on the
`Authorization` header. -/
def bearerToken (h : List Char) : List Char :=
  if h.take 7 = bearerMarker then h.drop 7 else []

/-- The characters of the literal `"token="` matched by the cookie regex. -/
def tokenEqChars : List Char := ['t', 'o', 'k', 'e', 'n', '=']

/-- Models the JavaScript regex match
`cookie.match(/(?:^|;\s*)token=([^;]+)/)` (server.js:39, 238): scan the
cookie string left to right for an occurrence of `token=` that is either at
position 0 (`first`) or preceded by a semicolon followed only by whitespace
(`semi`), and capture the following non-empty run of non-semicolon
characters; an occurrence with an empty value does not match (`[^;]+`
requires at least one character) and scanning continues. -/
def cookieScan : List Char → Bool → Bool → Option (List Char)
  | [], _, _ => none
  | c :: rest, first, semi =>
    let semiNext : Bool := (c == ';') || (semi && c.isWhitespace)
    if (first || semi) && ((c :: rest).take 6 == tokenEqChars) then
      let v := ((c :: rest).drop 6).takeWhile (fun x => x != ';')
      if v.isEmpty then cookieScan rest false semiNext else some v
    else cookieScan rest false semiNext

/-- Models the token-extraction sequence shared by the HTML middleware
(server.js:36-40) and `sessionFromRequest` (server.js:235-239):
`const token = tokenHeader || tokenCookie || ''`. -/
def extractToken (req : Request) : String :=
  let th := bearerToken (req.authorization.getD "").data
  let tc := (cookieScan (req.cookie.getD "").data true false).getD []
  ⟨if th.isEmpty then tc else th⟩

/-- Models `db.collection('sessions').findOne({ token })`: the first stored
session with the given token. -/
def findOneSession (sessions : List SessionRec) (token : String) : Option SessionRec :=
  sessions.find? (fun s => s.token == token)

/-- Models `getSession` (server.js:76-81): `null` for an empty token, a
missing record, or a record with a truthy `expiresAt` strictly before now. -/
def getSession (sessions : List SessionRec) (now : Nat) (token : String) :
    Option SessionRec :=
  if token = "" then none
  else
    match findOneSession sessions token with
    | none => none
    | some s => if s.expiresAt ≠ 0 ∧ s.expiresAt < now then none else some s

/-- Models `authRequired` (server.js:82-93): resolve the bearer token from
the `Authorization` header only, through `getSession`; `401` when no valid
session, otherwise the session's `userId` is attached to the request. -/
def authRequired (sessions : List SessionRec) (now : Nat) (req : Request) :
    Except Nat Nat :=
  let token : String := ⟨bearerToken (req.authorization.getD "").data⟩
  match getSession sessions now token with
  | none => .error 401
  | some s => .ok s.userId

/-- Models `sessionFromRequest` (server.js:234-241): extract the token from
header or cookie and look it up directly, with no expiry check. -/
def sessionFromRequest (sessions : List SessionRec) (req : Request) :
    Option SessionRec :=
  let token := extractToken req
  if token = "" then none else findOneSession sessions token

/-- Models the explicit page-route handlers for `/`, `/index.html`,
`/tasks.html`, `/inbox.html`, `/analytics.html` (server.js:247-259):
redirect to `/login.html` when `sessionFromRequest` yields nothing,
otherwise serve the file. -/
def pageRoute (sessions : List SessionRec) (req : Request) : Decision :=
  match sessionFromRequest sessions req with
  | none => .redirectLogin
  | some _ => .proceed

/-- Models JavaScript `s.endsWith(suffix)`: the last `suffix.length`
characters of `s` are exactly `suffix`. -/
def strEndsWith (s suffix : String) : Bool :=
  s.data.drop (s.data.length - suffix.data.length) == suffix.data

/-- Models `(req.method === 'GET' || req.method === 'HEAD') && (req.path ===
'/' || req.path.endsWith('.html'))` from the HTML middleware
(server.js:33). -/
def isHtmlReq (method path : String) : Bool :=
  (method == "GET" || method == "HEAD") && (path == "/" || strEndsWith path ".html")

/-- Models the allow-list `['/login.html', '/signup.html']`
(server.js:34). -/
def isAllowedPage (path : String) : Bool :=
  path == "/login.html" || path == "/signup.html"

/-- Models the HTML page-guard middleware (server.js:31-48).  The session
lookup is a parameter `lookup` returning `Except`, so that a throwing
persistence layer (`.error`) can be expressed; the surrounding
`try ... catch (_) {}` swallows the exception and falls through to
`next()`. -/
def pageGuardMw (lookup : String → Except Unit (Option SessionRec))
    (req : Request) (method path : String) : Decision :=
  if isHtmlReq method path && !isAllowedPage path then
    let token := extractToken req
    let res : Except Unit (Option SessionRec) :=
      if token = "" then .ok none else lookup token
    match res with
    | .error _ => .proceed
    | .ok none => .redirectLogin
    | .ok (some _) => .proceed
  else .proceed

/-! ## Password hashing (server.js lines 58-68)

Node's `crypto.scryptSync(password, salt, 64)` is an external primitive; it
is modelled by a parameter `scrypt : String → String → List Nat` returning
the derived key as a byte list, constrained where needed by the only fact
the call site fixes: the requested key length is 64 bytes.  Buffers and hex
encoding are modelled byte-for-byte. -/

/-- Hex digit value of a character, as accepted by `Buffer.from(s, 'hex')`
(decimal digits and both letter cases), computed from the character
code: codes 48-57 are `0`-`9`, 97-102 are `a`-`f`, 65-70 are `A`-`F`. -/
def hexDigitVal (c : Char) : Option Nat :=
  let n := c.toNat
  if 48 ≤ n ∧ n ≤ 57 then some (n - 48)
  else if 97 ≤ n ∧ n ≤ 102 then some (n - 87)
  else if 65 ≤ n ∧ n ≤ 70 then some (n - 55)
  else none

/-- Models `Buffer.from(s, 'hex')`: decode pairs of hex digits from the
left, stopping at the first character pair that is not two hex digits (a
trailing lone digit is dropped). -/
def hexDecode : List Char → List Nat
  | c1 :: c2 :: rest =>
    match hexDigitVal c1, hexDigitVal c2 with
    | some h, some l => (h * 16 + l) :: hexDecode rest
    | _, _ => []
  | _ => []

/-- Lowercase hex digit character for a value below 16, as produced by
`Buffer.prototype.toString('hex')`. -/
def hexChar : Nat → Char
  | 0 => '0' | 1 => '1' | 2 => '2' | 3 => '3' | 4 => '4'
  | 5 => '5' | 6 => '6' | 7 => '7' | 8 => '8' | 9 => '9'
  | 10 => 'a' | 11 => 'b' | 12 => 'c' | 13 => 'd' | 14 => 'e' | 15 => 'f'
  | _ => '0'

/-- Models `buf.toString('hex')`: two lowercase hex digits per byte. -/
def hexEncode (bs : List Nat) : List Char :=
  bs.flatMap (fun b => [hexChar (b / 16 % 16), hexChar (b % 16)])

/-- Models `crypto.timingSafeEqual(a, b)`: throws (`.error`) when the two
buffers have different byte lengths, otherwise answers whether they are
equal. -/
def timingSafeEqual (a b : List Nat) : Except Unit Bool :=
  if a.length = b.length then .ok (a == b) else .error ()

/-- Models JavaScript `str.split(sep)` for a single-character separator:
`''.split(':')` is `['']`, separators at the ends produce empty pieces. -/
def jsSplit (sep : Char) : List Char → List (List Char)
  | [] => [[]]
  | c :: rest =>
    if c = sep then [] :: jsSplit sep rest
    else
      match jsSplit sep rest with
      | [] => [[c]]
      | g :: gs => (c :: g) :: gs

/-- Models `hashPassword` (server.js:58-62).  The fresh random salt
(`crypto.randomBytes(16).toString('hex')`, 32 lowercase hex characters) is
passed in as `salt`; the result is the text form `salt:hash`. -/
def hashPassword (scrypt : String → String → List Nat)
    (salt password : String) : String :=
  ⟨salt.data ++ ':' :: hexEncode (scrypt password salt)⟩

/-- Models `verifyPassword` (server.js:63-68): split the stored form on
`':'` (JavaScript destructuring `[salt, hash]` takes the first two pieces,
missing pieces being `undefined`, i.e. falsy like the empty string); return
false when either piece is falsy; otherwise recompute the hash with the
stored salt and compare the two hex-decoded buffers with
`timingSafeEqual`, whose length-mismatch exception propagates
(`.error`). -/
def verifyPassword (scrypt : String → String → List Nat)
    (password stored : String) : Except Unit Bool :=
  let parts := jsSplit ':' stored.data
  let salt := parts.getD 0 []
  let hash := parts.getD 1 []
  if salt = [] ∨ hash = [] then .ok false
  else
    let recomputed := hexEncode (scrypt password ⟨salt⟩)
    timingSafeEqual (hexDecode hash) (hexDecode recomputed)

/-! ## Task repository (server.js lines 139-222)

Task documents live in the `tasks` collection; `_id` values
(`ObjectId`s) are modelled as `Nat` and are unique and monotone in
insertion order, so Mongo's `.sort({_id: -1})` is reverse insertion order.
`new Date(x).toISOString()` is modelled by a parameter
`toISO : String → Option String` (`none` when the date is invalid and
`toISOString` throws); the fixed-timezone display strings for "now" are the
parameters `nowIST` etc. -/

/-- A task document as stored by the server.  `none` in an `Option` field
models a JSON `null` (for `deadline`) or an absent field (for
`completedAt`/`completedAtIST`, which exist only after a move to
`done`). -/
structure DbTask where
  taskId : Nat
  userId : Nat
  title : String
  priority : String
  status : String
  assignee : String
  starred : Bool
  createdAt : Nat
  assignedAt : String
  assignedAtIST : String
  deadline : Option String
  completedAt : Option String
  completedAtIST : Option String
deriving DecidableEq, Repr

/-- Models `GET /api/tasks` (server.js:139-146):
`find({userId}).sort({_id:-1})` — the caller's tasks in reverse insertion
order. -/
def listTasks (db : List DbTask) (uid : Nat) : List DbTask :=
  (db.filter (fun t => t.userId == uid)).reverse

/-- The body of a `PATCH /api/tasks/:id` request, restricted to the six
whitelisted keys the handler copies (server.js:185-187); any other key in
the JSON body is ignored by the code and hence absent from the model.
`none` models an absent (`undefined`) field. -/
structure PatchBody where
  title : Option String
  priority : Option String
  status : Option String
  assignee : Option String
  starred : Option Bool
  deadline : Option String
deriving DecidableEq, Repr

/-- The `$set` document built by the PATCH handler; `none` means the field
is not part of the update. -/
structure UpdateSet where
  title : Option String
  priority : Option String
  status : Option String
  assignee : Option String
  starred : Option Bool
  deadline : Option String
  completedAt : Option String
  completedAtIST : Option String
deriving DecidableEq, Repr

/-- Models `String(update.deadline).replace(' ', 'T')`: JavaScript
`replace` with a string pattern replaces only the first occurrence. -/
def replaceFirstChar (from0 to0 : Char) : List Char → List Char
  | [] => []
  | c :: rest => if c = from0 then to0 :: rest else c :: replaceFirstChar from0 to0 rest

/-- Models the regex test `/^\d{4}-\d{2}-\d{2}T\d{2}:\d{2}$/`
(server.js:191): exactly the shape `YYYY-MM-DDTHH:MM`. -/
def isDateTimeLocal : List Char → Bool
  | [y1, y2, y3, y4, d5, m1, m2, d8, d1, d2, t11, h1, h2, c14, n1, n2] =>
    y1.isDigit && y2.isDigit && y3.isDigit && y4.isDigit && d5 == '-' &&
    m1.isDigit && m2.isDigit && d8 == '-' && d1.isDigit && d2.isDigit &&
    t11 == 'T' && h1.isDigit && h2.isDigit && c14 == ':' &&
    n1.isDigit && n2.isDigit
  | _ => false

/-- The deadline normalisation inside the PATCH handler (server.js:190-192):
replace the first space by `T` and append `:00` when the string has the
`datetime-local` shape. -/
def patchDeadlineString (d : String) : String :=
  let ds : List Char := replaceFirstChar ' ' 'T' d.data
  if isDateTimeLocal ds then ⟨ds ++ [':', '0', '0']⟩ else ⟨ds⟩

/-- Builds the `$set` update of the PATCH handler (server.js:184-200): copy
the whitelisted present fields; when `deadline` is present and truthy,
normalise it through `toISO`, deleting it from the update when parsing
throws; when `status` is being set to `'done'` (regardless of the task's
previous status), stamp `completedAt` and `completedAtIST` from now. -/
def buildUpdate (toISO : String → Option String) (nowISO nowIST : String)
    (body : PatchBody) : UpdateSet :=
  let base : UpdateSet :=
    { title := body.title, priority := body.priority, status := body.status,
      assignee := body.assignee, starred := body.starred,
      deadline := body.deadline, completedAt := none, completedAtIST := none }
  let withDl : UpdateSet :=
    match body.deadline with
    | some d =>
      if d ≠ "" then
        match toISO (patchDeadlineString d) with
        | some iso => { base with deadline := some iso }
        | none => { base with deadline := none }
      else base
    | none => base
  if body.status = some "done" then
    { withDl with completedAt := some nowISO, completedAtIST := some nowIST }
  else withDl

/-- Mongo `$set` semantics applied to one task document: present update
fields overwrite, absent ones leave the document unchanged. -/
def applyUpdate (u : UpdateSet) (t : DbTask) : DbTask :=
  { t with
    title := u.title.getD t.title,
    priority := u.priority.getD t.priority,
    status := u.status.getD t.status,
    assignee := u.assignee.getD t.assignee,
    starred := u.starred.getD t.starred,
    deadline := match u.deadline with | none => t.deadline | some d => some d,
    completedAt := match u.completedAt with | none => t.completedAt | some c => some c,
    completedAtIST := match u.completedAtIST with | none => t.completedAtIST | some c => some c }

/-- The filter `{ _id: new ObjectId(id), userId: new ObjectId(req.userId) }`
used by both PATCH and DELETE (server.js:202, 216). -/
def matchesIdUser (id uid : Nat) (t : DbTask) : Bool :=
  t.taskId == id && t.userId == uid

/-- Models `findOneAndUpdate(filter, {$set}, {returnDocument:'after'})`:
update the first matching document and return it after the update, `none`
when nothing matches (then nothing is written). -/
def findOneAndUpdate (id uid : Nat) (u : UpdateSet) :
    List DbTask → Option (DbTask × List DbTask)
  | [] => none
  | t :: rest =>
    if matchesIdUser id uid t then some (applyUpdate u t, applyUpdate u t :: rest)
    else
      match findOneAndUpdate id uid u rest with
      | none => none
      | some (r, rest2) => some (r, t :: rest2)

/-- Models the `PATCH /api/tasks/:id` handler (server.js:181-211): build the
update, apply it to the caller's task with the given id, `404` when no task
matches both the id and the caller's `userId`. -/
def patchTask (toISO : String → Option String) (nowISO nowIST : String)
    (db : List DbTask) (callerId id : Nat) (body : PatchBody) :
    Except Nat (DbTask × List DbTask) :=
  match findOneAndUpdate id callerId (buildUpdate toISO nowISO nowIST body) db with
  | none => .error 404
  | some (t, db2) => .ok (t, db2)

/-- Models `deleteOne({_id, userId})`: remove the first matching document,
`none` when nothing matches (`deletedCount` 0). -/
def deleteOne (id uid : Nat) : List DbTask → Option (List DbTask)
  | [] => none
  | t :: rest =>
    if matchesIdUser id uid t then some rest
    else (deleteOne id uid rest).map (fun r => t :: r)

/-- Models the `DELETE /api/tasks/:id` handler (server.js:213-222): `404`
when no task matches both the id and the caller's `userId`. -/
def deleteTask (db : List DbTask) (callerId id : Nat) : Except Nat (List DbTask) :=
  match deleteOne id callerId db with
  | none => .error 404
  | some db2 => .ok db2

/-- The body of a `POST /api/tasks` request.  The handler destructures only
`title, priority, status, assignee, starred, deadline` (server.js:150);
`createdAt` and `assignedAt` are client-supplied junk fields carried here
solely to state that the server ignores them. -/
structure CreateBody where
  title : Option String
  priority : Option String
  status : Option String
  assignee : Option String
  starred : Option Bool
  deadline : Option String
  createdAt : Option Nat
  assignedAt : Option String
deriving DecidableEq, Repr

/-- Models the `POST /api/tasks` handler (server.js:148-179): `400` when
`title` is absent or empty (nothing is inserted, the handler returns before
`insertOne`); otherwise build the document with destructuring defaults
`priority='Medium'`, `status='backlog'`, `assignee=''`, `starred=false`,
server-stamped `createdAt` (epoch ms), `assignedAt` (ISO) and
`assignedAtIST` (display form), normalised `deadline` (first space replaced
by `T`, `null` on absent/falsy or unparseable input), and insert it.  The
fresh `ObjectId` is the parameter `newId`. -/
def postTasks (toISO : String → Option String) (nowMs : Nat)
    (nowISO nowIST : String) (newId : Nat) (db : List DbTask) (uid : Nat)
    (body : CreateBody) : Except Nat (DbTask × List DbTask) :=
  match body.title with
  | none => .error 400
  | some s =>
    if s = "" then .error 400
    else
      let doc : DbTask :=
        { taskId := newId, userId := uid, title := s,
          priority := body.priority.getD "Medium",
          status := body.status.getD "backlog",
          assignee := body.assignee.getD "",
          starred := body.starred.getD false,
          createdAt := nowMs, assignedAt := nowISO, assignedAtIST := nowIST,
          deadline :=
            match body.deadline with
            | some d => if d ≠ "" then toISO ⟨replaceFirstChar ' ' 'T' d.data⟩ else none
            | none => none,
          completedAt := none, completedAtIST := none }
      .ok (doc, db ++ [doc])

/-! ## Task sync client (AppCore, client script)

The board's drop handler (client lines 669-696) mutates the in-memory task
list optimistically, issues a single PATCH with only `{status}`, and
reverts on a rejected fetch.  A resolved `fetch` — even with an error HTTP
status — is not a rejection, so the handler distinguishes `.ok ok?`
(response received, `ok?` its `res.ok` flag, which this handler never
reads) from `.error` (network failure / rejected promise). -/

/-- The client's in-memory view of a task, as far as the drop handler
reads and writes it. -/
structure ClientTask where
  id : Nat
  title : String
  status : String
  starred : Bool
deriving DecidableEq, Repr

/-- Mutating `task.status` on the object returned by
`tasks.find(t => String(t.id) === String(id))`: replace the status of the
first task with the given id. -/
def setStatusFirst (id : Nat) (st : String) : List ClientTask → List ClientTask
  | [] => []
  | t :: rest =>
    if t.id == id then { t with status := st } :: rest
    else t :: setStatusFirst id st rest

/-- A rendered column count: the number of tasks in a status column
(the DOM cards mirror the task list, `_updateColumnCounts`, client
lines 981-988). -/
def columnCount (tasks : List ClientTask) (st : String) : Nat :=
  (tasks.filter (fun t => t.status == st)).length

/-- The observable trace of one drop-event execution: the task list after
the optimistic mutation, the body of the PATCH request issued (`none` when
the handler returned early and made no call), and the task list after the
handler finished. -/
structure DropTrace where
  optimistic : List ClientTask
  request : Option PatchBody
  final : List ClientTask
deriving DecidableEq, Repr

/-- Models the drop handler (client lines 669-696): find the dragged task
by id, return early when absent or already in the target column; otherwise
capture `prev`, optimistically set the status (the card moves and counts
are recomputed from this state), issue `PATCH {status}`, and on a rejected
fetch set the status back to `prev` (moving the card back and recomputing
counts from the final state). -/
def dropHandler (tasks : List ClientTask) (dropId : Nat) (target : String)
    (fetchResult : Except Unit Bool) : DropTrace :=
  match tasks.find? (fun t => t.id == dropId) with
  | none => ⟨tasks, none, tasks⟩
  | some t =>
    if t.status = target then ⟨tasks, none, tasks⟩
    else
      let prev := t.status
      let optimistic := setStatusFirst dropId target tasks
      let body : PatchBody :=
        { title := none, priority := none, status := some target,
          assignee := none, starred := none, deadline := none }
      match fetchResult with
      | .ok _ => ⟨optimistic, some body, optimistic⟩
      | .error _ => ⟨optimistic, some body, setStatusFirst dropId prev optimistic⟩

/-! ## Status-summary widget (AppCore.updateTasksStatusWidget, client
lines 903-967)

The four counts are taken from the board (or the data model); the widths
are percentages computed in JavaScript floating point and rounded with
`Math.round`.  Real arithmetic is modelled exactly over `ℚ`;
`Math.round` rounds half toward positive infinity. -/

/-- Models JavaScript `Math.round`: nearest integer, ties toward positive
infinity. -/
def jsRound (q : ℚ) : ℤ := ⌊q + 1 / 2⌋

/-- The residual-fixing tail of the widget (client lines 942-948): if all
four rounded widths are zero, the `done` width becomes 100; then any
remaining difference from 100 is added to the `done` width, clamped at
zero.  Returns the final `done` width. -/
def fixResidual (rb rp rr rd : ℤ) : ℤ :=
  let sum := rb + rp + rr + rd
  let rd1 := if sum = 0 then 100 else rd
  let sum1 := if sum = 0 then (100 : ℤ) else sum
  if sum1 ≠ 100 then max 0 (rd1 + (100 - sum1)) else rd1

/-- Models the width computation of `updateTasksStatusWidget` (client
lines 926-948) from the four column counts: each width is
`Math.max(0, Math.round(count / max(1, total) * 100))`, then the residual
fix assigns the difference from 100 to the `done` segment, clamped at
zero.  Returns `(backlog, in-progress, review, done)` widths. -/
def widgetWidths (b p r d : ℕ) : ℤ × ℤ × ℤ × ℤ :=
  let total : ℚ := max 1 ((b : ℚ) + p + r + d)
  let pct : ℕ → ℚ := fun s => (s : ℚ) / total * 100
  let round0 : ℚ → ℤ := fun v => max 0 (jsRound v)
  let rb := round0 (pct b)
  let rp := round0 (pct p)
  let rr := round0 (pct r)
  let rd := round0 (pct d)
  (rb, rp, rr, fixResidual rb rp rr rd)

/-- The sum of the four widths produced by `widgetWidths`. -/
def widgetSum (b p r d : ℕ) : ℤ :=
  (widgetWidths b p r d).1 + (widgetWidths b p r d).2.1 +
    (widgetWidths b p r d).2.2.1 + (widgetWidths b p r d).2.2.2

/-! ## Theorems -/

/-- Evaluation rule for `jsRound`: it returns `z` exactly on the interval
`z - 1/2 ≤ q < z + 1/2`. -/
theorem jsRound_eq (q : ℚ) (z : ℤ) (h1 : (z : ℚ) ≤ q + 1 / 2)
    (h2 : q + 1 / 2 < z + 1) : jsRound q = z := by
  unfold jsRound
  exact Int.floor_eq_iff.mpr ⟨h1, by exact_mod_cast h2⟩

/-- The residual fix makes the four widths sum to `max 100 (rb + rp + rr)`
whenever all four inputs are non-negative. -/
theorem fixResidual_sum (rb rp rr rd : ℤ) (hb : 0 ≤ rb) (hp : 0 ≤ rp)
    (hr : 0 ≤ rr) (hd : 0 ≤ rd) :
    rb + rp + rr + fixResidual rb rp rr rd = max 100 (rb + rp + rr) := by
  simp only [fixResidual, max_def]
  split_ifs <;> omega

/-- C3 (amended): for all non-negative integer task counts the four rounded
segment widths sum to `max 100 w` where `w` is the sum of the rounded
backlog, in-progress and review widths — i.e. exactly 100 whenever those
three rounded widths do not already exceed 100, the residual being
absorbed by the `done` segment clamped at zero; and in the all-zero case
the widths are `(0, 0, 0, 100)`, the `done` segment alone. -/
theorem widget_sum_eq_max (b p r d : ℕ) :
    widgetSum b p r d =
      max 100 ((widgetWidths b p r d).1 + (widgetWidths b p r d).2.1 +
        (widgetWidths b p r d).2.2.1)
    ∧ widgetWidths 0 0 0 0 = (0, 0, 0, 100) := by
  constructor
  · dsimp only [widgetSum, widgetWidths]
    exact fixResidual_sum _ _ _ _ (le_max_left 0 _) (le_max_left 0 _)
      (le_max_left 0 _) (le_max_left 0 _)
  · simp only [widgetWidths]
    rw [max_eq_left (by push_cast; norm_num :
      ((0 : ℕ) : ℚ) + ((0 : ℕ) : ℚ) + ((0 : ℕ) : ℚ) + ((0 : ℕ) : ℚ) ≤ 1)]
    rw [jsRound_eq _ 0 (by push_cast; norm_num) (by push_cast; norm_num)]
    norm_num [fixResidual, max_def]

/-- C3 counterexample: at counts backlog = 168, in-progress = 168,
review = 163, done = 1 (exact percentages 33.6, 33.6, 32.6, 0.2, rounded
to 34, 34, 33, 0) the residual fix would need `done` to be −1 but clamps
it at 0, so the four widths sum to 101, not 100.  The exact rational
percentages are more than 0.09 away from every rounding tie, so IEEE-754
evaluation rounds identically. -/
theorem widget_sum_counterexample : widgetSum 168 168 163 1 ≠ 100 := by
  have h : widgetWidths 168 168 163 1 = (34, 34, 33, 0) := by
    simp only [widgetWidths]
    rw [max_eq_right (by push_cast; norm_num : (1 : ℚ) ≤
      ((168 : ℕ) : ℚ) + ((168 : ℕ) : ℚ) + ((163 : ℕ) : ℚ) + ((1 : ℕ) : ℚ))]
    rw [jsRound_eq _ 34 (by push_cast; norm_num) (by push_cast; norm_num),
        jsRound_eq _ 33 (by push_cast; norm_num) (by push_cast; norm_num),
        jsRound_eq _ 0 (by push_cast; norm_num) (by push_cast; norm_num)]
    norm_num [fixResidual, max_def]
  simp only [widgetSum, h]
  decide

/-- C6 (amended): `getSession` returns `none` exactly when the token is
empty, no session record with that token exists, or the record's
`expiresAt` is nonzero and strictly before now; in particular a session
whose `expiresAt` equals the current time is treated as present, not
absent. -/
theorem getSession_none_iff (sessions : List SessionRec) (now : Nat)
    (token : String) :
    getSession sessions now token = none ↔
      token = "" ∨ findOneSession sessions token = none ∨
        ∃ s, findOneSession sessions token = some s ∧
          s.expiresAt ≠ 0 ∧ s.expiresAt < now := by
  unfold getSession
  split_ifs with htok
  · simp [htok]
  · cases hf : findOneSession sessions token with
    | none => simp [htok, hf]
    | some s =>
      by_cases hexp : s.expiresAt ≠ 0 ∧ s.expiresAt < now
      · simp [htok, hf, hexp]
      · simp [htok, hf, hexp]

/-- C6 counterexample: a session whose `expiresAt` equals the current
instant is resolved, because the code compares with strict `<`
(`s.expiresAt < Date.now()`), while the claim requires `expiresAt <= now`
to be treated as absent. -/
theorem getSession_at_expiry_counterexample :
    getSession [⟨"t", 1, 0, 100⟩] 100 "t" = some ⟨"t", 1, 0, 100⟩ := by decide

/-- Inversion for `getSession`: a resolved session implies a nonempty token
and a successful store lookup. -/
theorem getSession_some_find (sessions : List SessionRec) (now : Nat)
    (token : String) (s : SessionRec)
    (h : getSession sessions now token = some s) :
    token ≠ "" ∧ findOneSession sessions token = some s := by
  unfold getSession at h
  by_cases htok : token = ""
  · rw [if_pos htok] at h
    cases h
  · rw [if_neg htok] at h
    refine ⟨htok, ?_⟩
    cases hf : findOneSession sessions token with
    | none => rw [hf] at h; exact h
    | some s2 =>
      rw [hf] at h
      have h2 : (if s2.expiresAt ≠ 0 ∧ s2.expiresAt < now then none
          else some s2) = some s := h
      by_cases hexp : s2.expiresAt ≠ 0 ∧ s2.expiresAt < now
      · rw [if_pos hexp] at h2
        cases h2
      · rw [if_neg hexp] at h2
        exact h2

/-- C2 counterexample: for the stored session `{token := "t", expiresAt :=
5}` and a request bearing `Authorization: Bearer t` at time 10 (the
session is expired), the protected page route serves the page while the
API guard rejects the same credentials with 401 — the two guards do not
resolve the token by the identical algorithm. -/
theorem page_serves_expired_session :
    pageRoute [⟨"t", 7, 0, 5⟩] ⟨some "Bearer t", none⟩ = .proceed ∧
    authRequired [⟨"t", 7, 0, 5⟩] 10 ⟨some "Bearer t", none⟩ = .error 401 := by
  decide

/-- C2 (amended): the page guard extracts the token exactly as the API
guard's header branch but omits the expiry check: a page route redirects
to `/login.html` precisely when the extracted token is empty or no session
record exists for it (regardless of `expiresAt`), and every request the
API guard accepts is served by the page guard — but not conversely, as an
expired-but-present session is served by page routes while the API
rejects it. -/
theorem page_guard_vs_api_guard (sessions : List SessionRec) (now : Nat)
    (req : Request) :
    (pageRoute sessions req = .redirectLogin ↔
      (extractToken req = "" ∨ findOneSession sessions (extractToken req) = none))
    ∧ (∀ uid, authRequired sessions now req = .ok uid →
        pageRoute sessions req = .proceed) := by
  constructor
  · simp only [pageRoute, sessionFromRequest]
    split_ifs with htok
    · simp [htok]
    · cases hf : findOneSession sessions (extractToken req) with
      | none => simp [htok, hf]
      | some s => simp [htok, hf]
  · intro uid h
    simp only [authRequired] at h
    cases hg : getSession sessions now ⟨bearerToken (req.authorization.getD "").data⟩ with
    | none => rw [hg] at h; cases h
    | some s =>
      obtain ⟨htok, hf⟩ := getSession_some_find _ _ _ _ hg
      have hne : bearerToken (req.authorization.getD "").data ≠ [] := by
        intro h0
        apply htok
        rw [h0]
      have hext : extractToken req = ⟨bearerToken (req.authorization.getD "").data⟩ := by
        simp only [extractToken]
        cases h1 : bearerToken (req.authorization.getD "").data with
        | nil => exact absurd h1 hne
        | cons a l => simp
      simp only [pageRoute, sessionFromRequest]
      rw [hext, if_neg htok, hf]

/-- Unfolding helper: the character list of a structurally built string. -/
theorem strData_mk (l : List Char) : (String.mk l).data = l := rfl

/-- `jsSplit` on a separator-free list yields that list as the single
piece. -/
theorem jsSplit_sepFree (sep : Char) (l : List Char) (h : ∀ c ∈ l, c ≠ sep) :
    jsSplit sep l = [l] := by
  induction l with
  | nil => rfl
  | cons c rest ih =>
    have hc : c ≠ sep := h c (List.mem_cons_self c rest)
    have hr := ih (fun x hx => h x (List.mem_cons_of_mem c hx))
    simp [jsSplit, hc, hr]

/-- `jsSplit` around a single separator between two separator-free pieces
yields exactly those two pieces. -/
theorem jsSplit_append (sep : Char) (l1 l2 : List Char)
    (h1 : ∀ c ∈ l1, c ≠ sep) (h2 : ∀ c ∈ l2, c ≠ sep) :
    jsSplit sep (l1 ++ sep :: l2) = [l1, l2] := by
  induction l1 with
  | nil => simp [jsSplit, jsSplit_sepFree sep l2 h2]
  | cons c rest ih =>
    have hc : c ≠ sep := h1 c (List.mem_cons_self c rest)
    have hr := ih (fun x hx => h1 x (List.mem_cons_of_mem c hx))
    simp [jsSplit, hc, hr]

/-- `hexEncode` produces two characters per byte. -/
theorem hexEncode_length (bs : List Nat) : (hexEncode bs).length = 2 * bs.length := by
  induction bs with
  | nil => rfl
  | cons b rest ih =>
    simp only [hexEncode, List.flatMap_cons] at ih ⊢
    simp [ih]
    omega

/-- `hexChar` never produces a colon. -/
theorem hexChar_ne_colon (n : Nat) : hexChar n ≠ ':' := by
  unfold hexChar
  split <;> decide

/-- No character of a hex encoding is a colon. -/
theorem hexEncode_colon_free (bs : List Nat) : ∀ c ∈ hexEncode bs, c ≠ ':' := by
  intro c hc
  induction bs with
  | nil => cases hc
  | cons b rest ih =>
    simp only [hexEncode, List.flatMap_cons, List.mem_append] at hc
    rcases hc with hc | hc
    · simp only [List.mem_cons, List.mem_singleton] at hc
      rcases hc with hc | hc | hc
      · rw [hc]; exact hexChar_ne_colon _
      · rw [hc]; exact hexChar_ne_colon _
      · cases hc
    · exact ih hc

/-- `hexChar` of a value below 16 decodes back to that value. -/
theorem hexDigitVal_hexChar {n : Nat} (h : n < 16) :
    hexDigitVal (hexChar n) = some n := by
  revert h
  revert n
  decide

/-- Hex-decoding a hex encoding recovers one byte per encoded byte (the
values are reduced mod 256 positionally, the length always matches). -/
theorem hexDecode_hexEncode_length (bs : List Nat) :
    (hexDecode (hexEncode bs)).length = bs.length := by
  induction bs with
  | nil => rfl
  | cons b rest ih =>
    show (hexDecode (hexChar (b / 16 % 16) :: hexChar (b % 16) ::
      hexEncode rest)).length = rest.length + 1
    rw [hexDecode, hexDigitVal_hexChar (Nat.mod_lt _ (by norm_num)),
        hexDigitVal_hexChar (Nat.mod_lt _ (by norm_num))]
    simp [ih]

/-- C9: round trip of `hashPassword` followed by `verifyPassword`: for any
derivation function (of the guaranteed 64-byte output length), any
password, and any salt of the shape `randomBytes` produces (nonempty, hex
characters only), verification of the freshly hashed password succeeds —
the stored `salt:hash` form splits back into exactly the salt and hash,
the hash is recomputed from the same salt, and the constant-time
comparison of the two equal digests returns true. -/
theorem hash_verify_roundtrip (scrypt : String → String → List Nat)
    (salt password : String)
    (hhex : ∀ c ∈ salt.data, (hexDigitVal c).isSome = true)
    (hne : salt.data ≠ [])
    (hlen : (scrypt password salt).length = 64) :
    verifyPassword scrypt password (hashPassword scrypt salt password) = .ok true := by
  have hcolonSalt : ∀ c ∈ salt.data, c ≠ ':' := by
    intro c hc he
    have hd := hhex c hc
    rw [he] at hd
    exact absurd hd (by decide)
  have hsplit : jsSplit ':' (salt.data ++ ':' :: hexEncode (scrypt password salt)) =
      [salt.data, hexEncode (scrypt password salt)] :=
    jsSplit_append ':' _ _ hcolonSalt (hexEncode_colon_free _)
  have hl : (hexEncode (scrypt password salt)).length = 128 := by
    rw [hexEncode_length, hlen]
  have hencne : hexEncode (scrypt password salt) ≠ [] := by
    intro he
    rw [he] at hl
    cases hl
  simp only [verifyPassword, hashPassword]
  rw [strData_mk, hsplit]
  simp only [List.getD_cons_zero, List.getD_cons_succ]
  rw [if_neg (not_or.mpr ⟨hne, hencne⟩)]
  rw [show (⟨salt.data⟩ : String) = salt from rfl]
  unfold timingSafeEqual
  rw [if_pos rfl]
  simp

/-- C5 (amended): `verifyPassword` returns false when the stored form is
missing its salt or hash piece; but when both pieces are present and the
stored hash hex-decodes to a byte length other than the 64 bytes of the
recomputed digest, `timingSafeEqual` throws instead of returning false;
with a 64-byte stored hash it totals to a boolean. -/
theorem verify_malformed_behaviour (scrypt : String → String → List Nat)
    (password stored : String)
    (hlen : ∀ p s, (scrypt p s).length = 64) :
    ((jsSplit ':' stored.data).getD 0 [] = [] ∨
        (jsSplit ':' stored.data).getD 1 [] = [] →
      verifyPassword scrypt password stored = .ok false)
    ∧ ((jsSplit ':' stored.data).getD 0 [] ≠ [] →
       (jsSplit ':' stored.data).getD 1 [] ≠ [] →
       (hexDecode ((jsSplit ':' stored.data).getD 1 [])).length ≠ 64 →
       verifyPassword scrypt password stored = .error ())
    ∧ ((jsSplit ':' stored.data).getD 0 [] ≠ [] →
       (jsSplit ':' stored.data).getD 1 [] ≠ [] →
       (hexDecode ((jsSplit ':' stored.data).getD 1 [])).length = 64 →
       ∃ b, verifyPassword scrypt password stored = .ok b) := by
  refine ⟨?_, ?_, ?_⟩
  · intro hmiss
    simp only [verifyPassword]
    rw [if_pos hmiss]
  · intro hs hh hlen2
    simp only [verifyPassword]
    rw [if_neg (not_or.mpr ⟨hs, hh⟩)]
    unfold timingSafeEqual
    rw [hexDecode_hexEncode_length, hlen, if_neg hlen2]
  · intro hs hh hlen2
    simp only [verifyPassword]
    rw [if_neg (not_or.mpr ⟨hs, hh⟩)]
    unfold timingSafeEqual
    rw [hexDecode_hexEncode_length, hlen, if_pos hlen2]
    exact ⟨_, rfl⟩

/-- C5 counterexample: on the malformed stored form `"aa:bb"` (salt and
hash both present, stored hash decoding to 1 byte instead of 64)
`verifyPassword` throws — it is not a total boolean function on malformed
stored forms. -/
theorem verify_throws_counterexample :
    verifyPassword (fun _ _ => List.replicate 64 0) "pw" "aa:bb" = .error () := by
  decide

/-- Concrete run of `verify_malformed_behaviour`: a stored form with an
empty hash piece yields false, one with a short hash piece throws. -/
theorem verify_malformed_behaviour_witness :
    verifyPassword (fun _ _ => List.replicate 64 0) "pw" "aa:" = .ok false ∧
    verifyPassword (fun _ _ => List.replicate 64 0) "pw" "ab:cd" = .error () := by
  constructor
  · exact (verify_malformed_behaviour (fun _ _ => List.replicate 64 0) "pw" "aa:"
      (fun _ _ => List.length_replicate 64 0)).1 (by decide)
  · exact (verify_malformed_behaviour (fun _ _ => List.replicate 64 0) "pw" "ab:cd"
      (fun _ _ => List.length_replicate 64 0)).2.1 (by decide) (by decide) (by decide)

/-- Concrete run of `hash_verify_roundtrip` at salt `"aa"` and password
`"p"`. -/
theorem hash_verify_roundtrip_witness :
    verifyPassword (fun _ _ => List.replicate 64 0) "p"
      (hashPassword (fun _ _ => List.replicate 64 0) "aa" "p") = .ok true :=
  hash_verify_roundtrip (fun _ _ => List.replicate 64 0) "aa" "p"
    (by decide) (by decide) (by decide)

/-- `findOneAndUpdate` writes nothing when no document matches the
filter. -/
theorem findOneAndUpdate_none (id uid : Nat) (u : UpdateSet) (db : List DbTask)
    (h : ∀ a ∈ db, matchesIdUser id uid a = false) :
    findOneAndUpdate id uid u db = none := by
  induction db with
  | nil => rfl
  | cons a tl ih =>
    have ha := h a (List.mem_cons_self a tl)
    have htl := ih (fun x hx => h x (List.mem_cons_of_mem a hx))
    simp [findOneAndUpdate, ha, htl]

/-- A document that does not match the filter survives a successful
`findOneAndUpdate` unchanged. -/
theorem findOneAndUpdate_mem (id uid : Nat) (u : UpdateSet) (t : DbTask) :
    ∀ (db db2 : List DbTask) (r : DbTask), t ∈ db →
      matchesIdUser id uid t = false →
      findOneAndUpdate id uid u db = some (r, db2) → t ∈ db2 := by
  intro db
  induction db with
  | nil => intro db2 r ht; cases ht
  | cons a tl ih =>
    intro db2 r ht hm h
    by_cases hma : matchesIdUser id uid a = true
    · rw [findOneAndUpdate, if_pos hma] at h
      injection h with h1
      injection h1 with h1 h2
      rw [← h2]
      rcases List.mem_cons.mp ht with rfl | htl
      · rw [hma] at hm; cases hm
      · exact List.mem_cons_of_mem _ htl
    · rw [findOneAndUpdate, if_neg hma] at h
      rcases List.mem_cons.mp ht with rfl | htl
      · rw [eq_false_of_ne_true hma] at hm
        cases hfu : findOneAndUpdate id uid u tl with
        | none => rw [hfu] at h; cases h
        | some pr =>
          rw [hfu] at h
          injection h with h1
          injection h1 with h1 h2
          rw [← h2]
          exact List.mem_cons_self _ _
      · cases hfu : findOneAndUpdate id uid u tl with
        | none => rw [hfu] at h; cases h
        | some pr =>
          rw [hfu] at h
          obtain ⟨r2, db3⟩ := pr
          injection h with h1
          injection h1 with h1 h2
          rw [← h2]
          exact List.mem_cons_of_mem _ (ih db3 r2 htl hm hfu)

/-- When the matching document is the unique holder of its id,
`findOneAndUpdate` returns exactly its `$set`-updated form. -/
theorem findOneAndUpdate_first (id uid : Nat) (u : UpdateSet) (t : DbTask) :
    ∀ db : List DbTask, t ∈ db → matchesIdUser id uid t = true →
      (∀ a ∈ db, a.taskId = t.taskId → a = t) →
      ∃ db2, findOneAndUpdate id uid u db = some (applyUpdate u t, db2) := by
  intro db
  induction db with
  | nil => intro ht; cases ht
  | cons a tl ih =>
    intro ht hmt huniq
    by_cases hma : matchesIdUser id uid a = true
    · have haid : a.taskId = id := by
        have := (Bool.and_eq_true _ _).mp hma
        exact eq_of_beq this.1
      have htid : t.taskId = id := by
        have := (Bool.and_eq_true _ _).mp hmt
        exact eq_of_beq this.1
      have hat : a = t := huniq a (List.mem_cons_self a tl) (by rw [haid, htid])
      rw [findOneAndUpdate, if_pos hma, hat]
      exact ⟨_, rfl⟩
    · have htl : t ∈ tl := by
        rcases List.mem_cons.mp ht with rfl | htl
        · rw [hmt] at hma; cases hma rfl
        · exact htl
      obtain ⟨db2, hdb2⟩ := ih htl hmt
        (fun x hx hxid => huniq x (List.mem_cons_of_mem a hx) hxid)
      rw [findOneAndUpdate, if_neg hma, hdb2]
      exact ⟨_, rfl⟩

/-- `deleteOne` deletes nothing when no document matches the filter. -/
theorem deleteOne_none (id uid : Nat) (db : List DbTask)
    (h : ∀ a ∈ db, matchesIdUser id uid a = false) :
    deleteOne id uid db = none := by
  induction db with
  | nil => rfl
  | cons a tl ih =>
    have ha := h a (List.mem_cons_self a tl)
    have htl := ih (fun x hx => h x (List.mem_cons_of_mem a hx))
    simp [deleteOne, ha, htl]

/-- A document that does not match the filter survives a successful
`deleteOne`. -/
theorem deleteOne_mem (id uid : Nat) (t : DbTask) :
    ∀ (db db2 : List DbTask), t ∈ db → matchesIdUser id uid t = false →
      deleteOne id uid db = some db2 → t ∈ db2 := by
  intro db
  induction db with
  | nil => intro db2 ht; cases ht
  | cons a tl ih =>
    intro db2 ht hm h
    by_cases hma : matchesIdUser id uid a = true
    · rw [deleteOne, if_pos hma] at h
      injection h with h1
      rw [← h1]
      rcases List.mem_cons.mp ht with rfl | htl
      · rw [hma] at hm; cases hm
      · exact htl
    · rw [deleteOne, if_neg hma] at h
      cases hdo : deleteOne id uid tl with
      | none => rw [hdo] at h; cases h
      | some db3 =>
        rw [hdo] at h
        injection h with h1
        rw [← h1]
        rcases List.mem_cons.mp ht with rfl | htl
        · exact List.mem_cons_self _ _
        · exact List.mem_cons_of_mem _ (ih db3 htl hm hdo)

/-- C1: a task of user `A` is invisible to and untouchable by any other
user `B`: it is never in `B`'s list (the list is filtered by the caller's
`userId`), `B`'s update and delete of its id answer 404 because the filter
matches both the id and the caller's `userId`, and no update or delete
`B` performs on any id whatsoever removes or alters `A`'s task. -/
theorem owner_isolation (db : List DbTask) (A B : Nat) (t : DbTask)
    (hAB : A ≠ B) (ht : t ∈ db) (hA : t.userId = A)
    (huniq : ∀ a ∈ db, a.taskId = t.taskId → a = t) :
    t ∉ listTasks db B
    ∧ (∀ toISO nowISO nowIST body,
        patchTask toISO nowISO nowIST db B t.taskId body = .error 404)
    ∧ (∀ toISO nowISO nowIST id body r db2,
        patchTask toISO nowISO nowIST db B id body = .ok (r, db2) → t ∈ db2)
    ∧ deleteTask db B t.taskId = .error 404
    ∧ (∀ id db2, deleteTask db B id = .ok db2 → t ∈ db2) := by
  have hmf : ∀ id2, matchesIdUser id2 B t = false := by
    intro id2
    unfold matchesIdUser
    have : (t.userId == B) = false := by
      rw [hA]
      exact beq_eq_false_iff_ne.mpr hAB
    rw [this, Bool.and_false]
  have hnone : ∀ a ∈ db, matchesIdUser t.taskId B a = false := by
    intro a ha
    by_cases hid : a.taskId = t.taskId
    · rw [huniq a ha hid]
      exact hmf _
    · unfold matchesIdUser
      rw [beq_eq_false_iff_ne.mpr (by rw [← ne_eq] at hid; exact hid), Bool.false_and]
  refine ⟨?_, ?_, ?_, ?_, ?_⟩
  · intro hmem
    unfold listTasks at hmem
    rw [List.mem_reverse, List.mem_filter] at hmem
    have := hmem.2
    rw [hA] at this
    exact hAB (eq_of_beq this)
  · intro toISO nowISO nowIST body
    unfold patchTask
    rw [findOneAndUpdate_none _ _ _ _ hnone]
  · intro toISO nowISO nowIST id body r db2 h
    unfold patchTask at h
    cases hfu : findOneAndUpdate id B (buildUpdate toISO nowISO nowIST body) db with
    | none => rw [hfu] at h; cases h
    | some pr =>
      obtain ⟨r2, db3⟩ := pr
      rw [hfu] at h
      injection h with h1
      injection h1 with h1 h2
      rw [← h2]
      exact findOneAndUpdate_mem id B _ t db db3 r2 ht (hmf id) hfu
  · unfold deleteTask
    rw [deleteOne_none _ _ _ hnone]
  · intro id db2 h
    unfold deleteTask at h
    cases hdo : deleteOne id B db with
    | none => rw [hdo] at h; cases h
    | some db3 =>
      rw [hdo] at h
      injection h with h1
      rw [← h1]
      exact deleteOne_mem id B t db db3 ht (hmf id) hdo

/-- Concrete run of `owner_isolation`: user 6 can neither see nor patch nor
delete the task of user 5. -/
theorem owner_isolation_witness :
    let t : DbTask :=
      ⟨1, 5, "x", "Medium", "backlog", "", false, 0, "", "", none, none, none⟩
    t ∉ listTasks [t] 6
    ∧ (∀ toISO nowISO nowIST body,
        patchTask toISO nowISO nowIST [t] 6 t.taskId body = .error 404)
    ∧ (∀ toISO nowISO nowIST id body r db2,
        patchTask toISO nowISO nowIST [t] 6 id body = .ok (r, db2) → t ∈ db2)
    ∧ deleteTask [t] 6 t.taskId = .error 404
    ∧ (∀ id db2, deleteTask [t] 6 id = .ok db2 → t ∈ db2) :=
  owner_isolation _ 5 6 _ (by decide) (List.mem_cons_self _ _) rfl
    (by intro a ha hid; rw [List.mem_singleton] at ha; exact ha)

/-- The PATCH `$set` update stamps `completedAt`/`completedAtIST` from now
exactly when the request body sets `status` to `'done'`. -/
theorem buildUpdate_completed (toISO : String → Option String)
    (nowISO nowIST : String) (body : PatchBody) :
    (body.status = some "done" →
      (buildUpdate toISO nowISO nowIST body).completedAt = some nowISO ∧
      (buildUpdate toISO nowISO nowIST body).completedAtIST = some nowIST)
    ∧ (body.status ≠ some "done" →
      (buildUpdate toISO nowISO nowIST body).completedAt = none ∧
      (buildUpdate toISO nowISO nowIST body).completedAtIST = none) := by
  constructor
  · intro h
    simp [buildUpdate, h]
  · intro h
    cases hdl : body.deadline with
    | none => simp [buildUpdate, h, hdl]
    | some d =>
      by_cases hd : d = ""
      · simp [buildUpdate, h, hdl, hd]
      · cases hiso : toISO (patchDeadlineString d) <;>
          simp [buildUpdate, h, hdl, hd, hiso]

/-- C4: a successful PATCH by the owner whose body sets `status` to
`'done'` stamps `completedAt`/`completedAtIST` from the current time —
unconditionally, with no hypothesis on the task's previous status, so also
when it was already `'done'` — and a successful PATCH whose body does not
set `status` to `'done'` (any other value, or absent) leaves both fields
exactly as they were: `completedAt` is never cleared. -/
theorem patch_done_stamps (toISO : String → Option String)
    (nowISO nowIST : String) (db : List DbTask) (caller : Nat)
    (body : PatchBody) (t t2 : DbTask) (db2 : List DbTask)
    (ht : t ∈ db) (hown : t.userId = caller)
    (huniq : ∀ a ∈ db, a.taskId = t.taskId → a = t)
    (hok : patchTask toISO nowISO nowIST db caller t.taskId body = .ok (t2, db2)) :
    (body.status = some "done" →
      t2.completedAt = some nowISO ∧ t2.completedAtIST = some nowIST)
    ∧ (body.status ≠ some "done" →
      t2.completedAt = t.completedAt ∧ t2.completedAtIST = t.completedAtIST) := by
  have hmt : matchesIdUser t.taskId caller t = true := by
    unfold matchesIdUser
    rw [hown]
    simp
  obtain ⟨db3, hdb3⟩ :=
    findOneAndUpdate_first t.taskId caller (buildUpdate toISO nowISO nowIST body)
      t db ht hmt huniq
  unfold patchTask at hok
  rw [hdb3] at hok
  injection hok with h1
  injection h1 with h1 h2
  rw [← h1]
  constructor
  · intro h
    obtain ⟨hc, hci⟩ := (buildUpdate_completed toISO nowISO nowIST body).1 h
    constructor
    · show (match (buildUpdate toISO nowISO nowIST body).completedAt with
        | none => t.completedAt | some c => some c) = some nowISO
      rw [hc]
    · show (match (buildUpdate toISO nowISO nowIST body).completedAtIST with
        | none => t.completedAtIST | some c => some c) = some nowIST
      rw [hci]
  · intro h
    obtain ⟨hc, hci⟩ := (buildUpdate_completed toISO nowISO nowIST body).2 h
    constructor
    · show (match (buildUpdate toISO nowISO nowIST body).completedAt with
        | none => t.completedAt | some c => some c) = t.completedAt
      rw [hc]
    · show (match (buildUpdate toISO nowISO nowIST body).completedAtIST with
        | none => t.completedAtIST | some c => some c) = t.completedAtIST
      rw [hci]

/-- Concrete run of `patch_done_stamps` on a task that is already `'done'`
with an old `completedAt`: patching `status := 'done'` again re-stamps
`completedAt` to the new time. -/
theorem patch_done_stamps_witness :
    let t : DbTask := ⟨1, 1, "a", "Medium", "done", "", false, 0, "", "",
      none, some "OLD", some "OLDI"⟩
    let t2 : DbTask := ⟨1, 1, "a", "Medium", "done", "", false, 0, "", "",
      none, some "NOW", some "NOWI"⟩
    let body : PatchBody := ⟨none, none, some "done", none, none, none⟩
    ((body.status = some "done" →
      t2.completedAt = some "NOW" ∧ t2.completedAtIST = some "NOWI")
    ∧ (body.status ≠ some "done" →
      t2.completedAt = t.completedAt ∧ t2.completedAtIST = t.completedAtIST)) :=
  patch_done_stamps (fun _ => none) "NOW" "NOWI"
    [⟨1, 1, "a", "Medium", "done", "", false, 0, "", "", none, some "OLD", some "OLDI"⟩]
    1 ⟨none, none, some "done", none, none, none⟩
    ⟨1, 1, "a", "Medium", "done", "", false, 0, "", "", none, some "OLD", some "OLDI"⟩
    ⟨1, 1, "a", "Medium", "done", "", false, 0, "", "", none, some "NOW", some "NOWI"⟩
    [⟨1, 1, "a", "Medium", "done", "", false, 0, "", "", none, some "NOW", some "NOWI"⟩]
    (List.mem_cons_self _ _) rfl
    (by intro a ha hid; rw [List.mem_singleton] at ha; exact ha)
    (by decide)

/-- C8: `POST /api/tasks` rejects an absent or empty `title` with 400
before anything is inserted; otherwise the created document defaults
`priority` to `'Medium'`, `status` to `'backlog'` and `starred` to `false`
whenever those fields are absent, stamps `createdAt`, `assignedAt` and
`assignedAtIST` server-side from the current time, is appended to the
store, and the outcome is unchanged by any client-supplied `createdAt` or
`assignedAt` value, which the handler never reads. -/
theorem create_validates_defaults_stamps (toISO : String → Option String)
    (nowMs : Nat) (nowISO nowIST : String) (newId : Nat) (db : List DbTask)
    (uid : Nat) (body : CreateBody) :
    (body.title = none ∨ body.title = some "" →
      postTasks toISO nowMs nowISO nowIST newId db uid body = .error 400)
    ∧ (∀ s, body.title = some s → s ≠ "" →
        ∃ doc, postTasks toISO nowMs nowISO nowIST newId db uid body =
            .ok (doc, db ++ [doc])
          ∧ (body.priority = none → doc.priority = "Medium")
          ∧ (body.status = none → doc.status = "backlog")
          ∧ (body.starred = none → doc.starred = false)
          ∧ doc.createdAt = nowMs ∧ doc.assignedAt = nowISO
          ∧ doc.assignedAtIST = nowIST)
    ∧ (∀ ca aa, postTasks toISO nowMs nowISO nowIST newId db uid
        { body with createdAt := ca, assignedAt := aa } =
        postTasks toISO nowMs nowISO nowIST newId db uid body) := by
  refine ⟨?_, ?_, ?_⟩
  · rintro (h | h) <;> simp [postTasks, h]
  · intro s hs hne
    simp only [postTasks, hs]
    rw [if_neg hne]
    refine ⟨_, rfl, ?_, ?_, ?_, rfl, rfl, rfl⟩
    · intro hp
      show (body.priority.getD "Medium") = "Medium"
      rw [hp]
      rfl
    · intro hp
      show (body.status.getD "backlog") = "backlog"
      rw [hp]
      rfl
    · intro hp
      show (body.starred.getD false) = false
      rw [hp]
      rfl
  · intro ca aa
    cases body
    rfl

/-- Concrete run of `create_validates_defaults_stamps`: the scenario
creation `{title: "Ship v2", priority: "High"}` (with junk client
timestamps) stores a `backlog`, unstarred task with server-stamped
times. -/
theorem create_validates_defaults_stamps_witness :
    ∃ doc, postTasks (fun _ => none) 5 "ISO" "IST" 9 []
        1 ⟨some "Ship v2", some "High", none, none, none, none, some 999, some "junk"⟩ =
        .ok (doc, [] ++ [doc])
      ∧ ((⟨some "Ship v2", some "High", none, none, none, none, some 999,
          some "junk"⟩ : CreateBody).priority = none → doc.priority = "Medium")
      ∧ ((⟨some "Ship v2", some "High", none, none, none, none, some 999,
          some "junk"⟩ : CreateBody).status = none → doc.status = "backlog")
      ∧ ((⟨some "Ship v2", some "High", none, none, none, none, some 999,
          some "junk"⟩ : CreateBody).starred = none → doc.starred = false)
      ∧ doc.createdAt = 5 ∧ doc.assignedAt = "ISO" ∧ doc.assignedAtIST = "IST" :=
  (create_validates_defaults_stamps (fun _ => none) 5 "ISO" "IST" 9 [] 1
    ⟨some "Ship v2", some "High", none, none, none, none, some 999, some "junk"⟩).2.1
    "Ship v2" rfl (by decide)

/-- Column count over a cons cell. -/
theorem columnCount_cons (a : ClientTask) (l : List ClientTask) (st : String) :
    columnCount (a :: l) st = (if a.status == st then 1 else 0) + columnCount l st := by
  unfold columnCount
  rw [List.filter_cons]
  split <;> simp [Nat.add_comm]

/-- Setting the first matching task's status back to its captured previous
status undoes the optimistic mutation exactly. -/
theorem setStatusFirst_revert (id : Nat) (st : String) :
    ∀ (tasks : List ClientTask) (t : ClientTask),
      tasks.find? (fun x => x.id == id) = some t →
      setStatusFirst id t.status (setStatusFirst id st tasks) = tasks := by
  intro tasks
  induction tasks with
  | nil => intro t h; cases h
  | cons a tl ih =>
    intro t h
    simp only [List.find?_cons] at h
    by_cases ha : (a.id == id) = true
    · rw [ha] at h
      injection h with h1
      subst h1
      simp [setStatusFirst, ha]
    · rw [eq_false_of_ne_true ha] at h
      simp only [setStatusFirst, if_neg ha]
      rw [ih t h]

/-- Moving the first matching task into a different target column raises
the target column's count by one and lowers its previous column's count by
one. -/
theorem columnCount_setStatusFirst (id : Nat) (target : String) :
    ∀ (tasks : List ClientTask) (t : ClientTask),
      tasks.find? (fun x => x.id == id) = some t →
      t.status ≠ target →
      columnCount (setStatusFirst id target tasks) target =
          columnCount tasks target + 1
      ∧ columnCount tasks t.status =
          columnCount (setStatusFirst id target tasks) t.status + 1 := by
  intro tasks
  induction tasks with
  | nil => intro t h; cases h
  | cons a tl ih =>
    intro t h hne
    simp only [List.find?_cons] at h
    by_cases ha : (a.id == id) = true
    · rw [ha] at h
      injection h with h1
      subst h1
      have hf : (a.status == target) = false := beq_eq_false_iff_ne.mpr hne
      have hf2 : (target == a.status) = false :=
        beq_eq_false_iff_ne.mpr (Ne.symm hne)
      constructor
      · simp only [setStatusFirst, if_pos ha, columnCount_cons]
        simp [hf, Nat.add_comm]
      · simp only [setStatusFirst, if_pos ha, columnCount_cons]
        simp [hf2, Nat.add_comm]
    · rw [eq_false_of_ne_true ha] at h
      obtain ⟨h1, h2⟩ := ih t h hne
      constructor
      · simp only [setStatusFirst, if_neg ha, columnCount_cons]
        omega
      · simp only [setStatusFirst, if_neg ha, columnCount_cons]
        omega

/-- C7: dropping a card with a different target column first mutates the
local status optimistically (the target column count grows by one and the
previous column count shrinks by one, recomputed from the optimistic
state), issues exactly one PATCH whose body carries only the `status`
field, and then: on a rejected fetch (network failure) the status is
reverted to the captured previous status so the final task list — and
hence every recomputed count — is the original one; on a resolved fetch
(whatever its HTTP status, which the handler never reads) the optimistic
state is kept. -/
theorem drop_optimistic_and_revert (tasks : List ClientTask) (t : ClientTask)
    (dropId : Nat) (target : String) (fetchResult : Except Unit Bool)
    (hfind : tasks.find? (fun x => x.id == dropId) = some t)
    (hdiff : t.status ≠ target) :
    (dropHandler tasks dropId target fetchResult).optimistic =
        setStatusFirst dropId target tasks
    ∧ (dropHandler tasks dropId target fetchResult).request =
        some ⟨none, none, some target, none, none, none⟩
    ∧ columnCount (setStatusFirst dropId target tasks) target =
        columnCount tasks target + 1
    ∧ columnCount tasks t.status =
        columnCount (setStatusFirst dropId target tasks) t.status + 1
    ∧ (fetchResult = .error () →
        (dropHandler tasks dropId target fetchResult).final = tasks)
    ∧ (∀ ok2, fetchResult = .ok ok2 →
        (dropHandler tasks dropId target fetchResult).final =
          setStatusFirst dropId target tasks) := by
  obtain ⟨hc1, hc2⟩ := columnCount_setStatusFirst dropId target tasks t hfind hdiff
  have hrev := setStatusFirst_revert dropId target tasks t hfind
  simp only [dropHandler, hfind, if_neg hdiff]
  cases fetchResult with
  | ok b =>
    refine ⟨rfl, rfl, hc1, hc2, ?_, ?_⟩
    · intro hcontr
      cases hcontr
    · intro k hk
      rfl
  | error e =>
    refine ⟨rfl, rfl, hc1, hc2, ?_, ?_⟩
    · intro hfail
      exact hrev
    · intro k hk
      cases hk

/-- Concrete run of `drop_optimistic_and_revert`: dragging the only task
from `backlog` to `done` with the PATCH rejected moves it and then moves
it back. -/
theorem drop_optimistic_and_revert_witness :
    (dropHandler [⟨1, "a", "backlog", false⟩] 1 "done" (.error ())).optimistic =
        setStatusFirst 1 "done" [⟨1, "a", "backlog", false⟩]
    ∧ (dropHandler [⟨1, "a", "backlog", false⟩] 1 "done" (.error ())).request =
        some ⟨none, none, some "done", none, none, none⟩
    ∧ columnCount (setStatusFirst 1 "done" [⟨1, "a", "backlog", false⟩]) "done" =
        columnCount [⟨1, "a", "backlog", false⟩] "done" + 1
    ∧ columnCount [⟨1, "a", "backlog", false⟩]
        (⟨1, "a", "backlog", false⟩ : ClientTask).status =
        columnCount (setStatusFirst 1 "done" [⟨1, "a", "backlog", false⟩])
          (⟨1, "a", "backlog", false⟩ : ClientTask).status + 1
    ∧ ((.error () : Except Unit Bool) = .error () →
        (dropHandler [⟨1, "a", "backlog", false⟩] 1 "done" (.error ())).final =
          [⟨1, "a", "backlog", false⟩])
    ∧ (∀ ok2, (.error () : Except Unit Bool) = .ok ok2 →
        (dropHandler [⟨1, "a", "backlog", false⟩] 1 "done" (.error ())).final =
          setStatusFirst 1 "done" [⟨1, "a", "backlog", false⟩]) :=
  drop_optimistic_and_revert [⟨1, "a", "backlog", false⟩]
    ⟨1, "a", "backlog", false⟩ 1 "done" (.error ()) (by decide) (by decide)

/-- Concrete run of `page_guard_vs_api_guard` on a live (unexpired)
session. -/
theorem page_guard_vs_api_guard_witness :
    (pageRoute [⟨"v", 3, 0, 999⟩] ⟨some "Bearer v", none⟩ = .redirectLogin ↔
      (extractToken ⟨some "Bearer v", none⟩ = "" ∨
        findOneSession [⟨"v", 3, 0, 999⟩]
          (extractToken ⟨some "Bearer v", none⟩) = none))
    ∧ (∀ uid, authRequired [⟨"v", 3, 0, 999⟩] 10 ⟨some "Bearer v", none⟩ = .ok uid →
        pageRoute [⟨"v", 3, 0, 999⟩] ⟨some "Bearer v", none⟩ = .proceed) :=
  page_guard_vs_api_guard [⟨"v", 3, 0, 999⟩] 10 ⟨some "Bearer v", none⟩

/-- C10: when the HTML page-guard middleware's session lookup throws (for
example the persistence layer is unavailable), the `catch (_) {}` swallows
the error and the middleware calls `next()`, so the protected page is
served to the unauthenticated requester instead of redirecting to
`/login.html`: the page gate fails open on internal errors. -/
theorem pageGuard_fails_open (lookup : String → Except Unit (Option SessionRec))
    (req : Request) (method path : String)
    (hthrow : ∀ tok, lookup tok = .error ())
    (hhtml : isHtmlReq method path = true)
    (hallow : isAllowedPage path = false)
    (htok : extractToken req ≠ "") :
    pageGuardMw lookup req method path = .proceed := by
  unfold pageGuardMw
  simp [hhtml, hallow, htok, hthrow]

/-- Concrete run of `pageGuard_fails_open`: a `GET /index.html` carrying a
bearer token while every lookup throws is forwarded, not redirected. -/
theorem pageGuard_fails_open_witness :
    pageGuardMw (fun _ => .error ()) ⟨some "Bearer t", none⟩ "GET" "/index.html" =
      .proceed :=
  pageGuard_fails_open (fun _ => .error ()) ⟨some "Bearer t", none⟩ "GET"
    "/index.html" (fun _ => rfl) (by decide) (by decide) (by decide)
